import Mathlib

/-!
Verification of the article relationship resolver: the wiki-link resolver,
relevance ranker and learning path builder found in the repository's
link-resolution utility module (initializeLinkResolver, resolveWikiLink,
findRelatedArticles, getLearningPath).  The collection of blog articles is
modelled as an explicit list parameter (the code obtains it via
getCollection('blog')), and the module-level resolver cache as an explicit
Option-typed cache argument.
-/

/-- str.toLowerCase() restricted to basic latin letters, applied
characterwise (kernel-reducible, unlike String.map). -/
def lowerStr (s : String) : String := ⟨s.data.map Char.toLower⟩

/-- An article record as loaded by the content layer.  Optional frontmatter
fields (concepts, tags, prerequisites, relatedArticles, difficulty,
mindmapBranch) are modelled as Option, mirroring the zod schema where they
are `.optional()`. -/
structure Article where
  slug : String
  title : String
  concepts : Option (List String)
  tags : Option (List String)
  prerequisites : Option (List String)
  relatedArticles : Option (List String)
  difficulty : Option String
  mindmapBranch : Option String
deriving DecidableEq

/-- JavaScript whitespace class: the characters matched by the regex \s. -/
def isJsSpace (c : Char) : Bool :=
  c = ' ' || c = '\t' || c = '\n' || c = '\r' ||
  c.val = 0x0b || c.val = 0x0c || c.val = 0xa0 || c.val = 0x1680 ||
  (0x2000 ≤ c.val && c.val ≤ 0x200a) ||
  c.val = 0x2028 || c.val = 0x2029 || c.val = 0x202f || c.val = 0x205f ||
  c.val = 0x3000 || c.val = 0xfeff

/-- Replace every maximal run of whitespace by a single hyphen: the effect of
str.replace(/\s+/g, '-').  The flag records whether the previous character was
whitespace (i.e. we are inside a run whose hyphen has been emitted). -/
def hyphenateAux : List Char → Bool → List Char
  | [], _ => []
  | c :: cs, prevWs =>
    if isJsSpace c then
      if prevWs then hyphenateAux cs true
      else '-' :: hyphenateAux cs true
    else c :: hyphenateAux cs false

/-- title.replace(/\s+/g, '-'). -/
def hyphenate (s : String) : String := ⟨hyphenateAux s.data false⟩

/-- str.replace(" ", "-"): a string (non-regex) pattern, so JavaScript
replaces only the first occurrence of the single space character. -/
def replaceFirstSpace : List Char → List Char
  | [] => []
  | c :: cs => if c = ' ' then '-' :: cs else c :: replaceFirstSpace cs

/-- String version of replaceFirstSpace. -/
def replaceFirstSpaceStr (s : String) : String := ⟨replaceFirstSpace s.data⟩

/-- Case-insensitive match of the lowercase word w at the head of cs;
returns the remainder after the word. -/
def stripWordCI : List Char → List Char → Option (List Char)
  | [], cs => some cs
  | _ :: _, [] => none
  | w :: ws, c :: cs => if c.toLower = w then stripWordCI ws cs else none

/-- Require at least one whitespace character, consume the whole run
(the greedy \s+), and return the remainder. -/
def wsRun : List Char → Option (List Char)
  | [] => none
  | c :: cs => if isJsSpace c then some (cs.dropWhile isJsSpace) else none

/-- The alternation (a|an|the) of the regex /^(a|an|the)\s+/i: each branch
must be followed by whitespace, which is consumed together with the word. -/
def afterLeadingArticle (cs : List Char) : Option (List Char) :=
  match (stripWordCI ['a'] cs).bind wsRun with
  | some r => some r
  | none =>
    match (stripWordCI ['a', 'n'] cs).bind wsRun with
    | some r => some r
    | none => (stripWordCI ['t', 'h', 'e'] cs).bind wsRun

/-- title.replace(/^(a|an|the)\s+/i, ''). -/
def stripLeadingArticle (cs : List Char) : List Char :=
  match afterLeadingArticle cs with
  | some rest => rest
  | none => cs

/-- The connector words of /\s+(for|in|with|using|and|or)\s+/gi, in
alternation order. -/
def connWords : List (List Char) :=
  [['f', 'o', 'r'], ['i', 'n'], ['w', 'i', 't', 'h'],
   ['u', 's', 'i', 'n', 'g'], ['a', 'n', 'd'], ['o', 'r']]

/-- Try each connector word (in alternation order) at the head of cs; the
word must be followed by whitespace, which is consumed. -/
def tryConnWord (cs : List Char) : Option (List Char) :=
  connWords.findSome? (fun w => (stripWordCI w cs).bind wsRun)

/-- Match /\s+(for|in|with|using|and|or)\s+/ at the current position:
leading whitespace run, a connector word, trailing whitespace run. -/
def matchConnAt (cs : List Char) : Option (List Char) :=
  (wsRun cs).bind tryConnWord

/-- Global scan of .replace(/\s+(for|in|with|using|and|or)\s+/gi, ' '):
at each position either the pattern matches (emit a single space and resume
after the consumed text, as the JS regex engine does) or the character is
copied.  Structural recursion on a fuel that starts at the list length; each
step consumes at least one character, so the fuel never runs out. -/
def collapseConnAux : Nat → List Char → List Char
  | 0, cs => cs
  | Nat.succ fuel, cs =>
    match cs with
    | [] => []
    | c :: rest =>
      match matchConnAt cs with
      | some r => ' ' :: collapseConnAux fuel r
      | none => c :: collapseConnAux fuel rest

/-- str.replace(/\s+(for|in|with|using|and|or)\s+/gi, ' '). -/
def collapseConn (cs : List Char) : List Char := collapseConnAux cs.length cs

/-- str.trim(): strip whitespace from both ends. -/
def trimJs (cs : List Char) : List Char :=
  ((cs.dropWhile isJsSpace).reverse.dropWhile isJsSpace).reverse

/-- The simplified title built during index construction:
title.replace(/^(a|an|the)\s+/i, '')
     .replace(/\s+(for|in|with|using|and|or)\s+/gi, ' ')
     .trim() -/
def simplify (title : String) : String :=
  ⟨trimJs (collapseConn (stripLeadingArticle title.data))⟩

/-- The resolver index: a JS Map from key strings to slugs.  Modelled as the
list of set operations in order; lookup takes the latest binding
(Map.set overwrites, last write wins). -/
abbrev Index := List (String × String)

/-- Map.set k v. -/
def mapSet (m : Index) (k v : String) : Index := m ++ [(k, v)]

/-- Map.get k: the value of the latest set for key k, if any. -/
def mapGet (m : Index) (k : String) : Option String :=
  m.foldl (fun acc kv => if kv.1 = k then some kv.2 else acc) none

/-- The body of the allPosts.forEach loop of initializeLinkResolver:
register all key variations of one article. -/
def registerPost (m : Index) (post : Article) : Index :=
  let title := post.title
  let slug := post.slug
  let m1 := mapSet m title slug
  let m2 := mapSet m1 (lowerStr title) slug
  let m3 := mapSet m2 slug slug
  let m4 := mapSet m3 (hyphenate title) slug
  let m5 := mapSet m4 (lowerStr (hyphenate title)) slug
  let simplified := simplify title
  if simplified ≠ title then
    mapSet (mapSet m5 simplified slug) (lowerStr simplified) slug
  else m5

/-- The index built from a collection snapshot (the body of
initializeLinkResolver when the cache is empty). -/
def buildIndex (posts : List Article) : Index := posts.foldl registerPost []

/-- initializeLinkResolver with the module-level cache made explicit:
if (articleSlugs) return articleSlugs; otherwise build from the collection. -/
def initializeLinkResolver (cache : Option Index) (posts : List Article) : Index :=
  match cache with
  | some m => m
  | none => buildIndex posts

/-- One lookup step of resolveWikiLink: Map.get followed by the JS
truthiness test if (slug), under which the empty string is falsy. -/
def lookupTruthy (m : Index) (k : String) : Option String :=
  match mapGet m k with
  | some s => if s = "" then none else some s
  | none => none

/-- resolveWikiLink: try the exact key, the lowercased key, the hyphenated
key and the lowercased hyphenated key in that order; return the URL of the
first hit, or null (none) when all four miss. -/
def resolveWikiLink (m : Index) (linkText : String) : Option String :=
  match lookupTruthy m linkText with
  | some slug => some ("/blog/" ++ slug ++ "/")
  | none =>
    match lookupTruthy m (lowerStr linkText) with
    | some slug => some ("/blog/" ++ slug ++ "/")
    | none =>
      match lookupTruthy m (hyphenate linkText) with
      | some slug => some ("/blog/" ++ slug ++ "/")
      | none =>
        match lookupTruthy m (lowerStr (hyphenate linkText)) with
        | some slug => some ("/blog/" ++ slug ++ "/")
        | none => none

/-- substring test: hay.includes(needle) on character lists. -/
def containsChars : List Char → List Char → Bool
  | [], needle => needle.isEmpty
  | c :: cs, needle => startsWithChars (c :: cs) needle || containsChars cs needle
where
  startsWithChars : List Char → List Char → Bool
    | _, [] => true
    | [], _ :: _ => false
    | c :: cs, d :: ds => c = d && startsWithChars cs ds

/-- hay.includes(needle) on strings. -/
def includesStr (hay sub : String) : Bool := containsChars hay.data sub.data

/-- An entry of the findRelatedArticles result. -/
structure RelatedEntry where
  slug : String
  title : String
  relevance : Nat
deriving DecidableEq

/-- The per-concept accumulation step of findRelatedArticles: +3 for a
case-insensitive substring hit among the candidate's concepts, +2 among its
tags, +1 in its lowercased title. -/
def conceptScoreStep (post : Article) (acc : Nat) (concept : String) : Nat :=
  let acc1 := if (post.concepts.getD []).any
      (fun pc => includesStr (lowerStr pc) (lowerStr concept)) then acc + 3 else acc
  let acc2 := if (post.tags.getD []).any
      (fun tg => includesStr (lowerStr tg) (lowerStr concept)) then acc1 + 2 else acc1
  if includesStr (lowerStr post.title) (lowerStr concept) then acc2 + 1 else acc2

/-- The relevance accumulated for one candidate over all query concepts. -/
def scorePost (concepts : List String) (post : Article) : Nat :=
  concepts.foldl (conceptScoreStep post) 0

/-- The candidate list built by the forEach loop of findRelatedArticles, in
collection order: self is skipped, zero-relevance candidates are skipped. -/
def relatedCandidates (posts : List Article) (concepts : List String)
    (currentSlug : String) : List RelatedEntry :=
  posts.filterMap (fun post =>
    if post.slug = currentSlug then none
    else
      let relevance := scorePost concepts post
      if relevance > 0 then some ⟨post.slug, post.title, relevance⟩ else none)

/-- Stable insertion for the descending sort by relevance: x is placed
before the first element whose relevance does not exceed x's, so elements
of equal relevance keep their original relative order. -/
def insertByRelevance (x : RelatedEntry) : List RelatedEntry → List RelatedEntry
  | [] => [x]
  | y :: ys =>
    if y.relevance ≤ x.relevance then x :: y :: ys
    else y :: insertByRelevance x ys

/-- related.sort((a, b) => b.relevance - a.relevance): the stable descending
sort required of Array.prototype.sort since ES2019. -/
def sortByRelevanceDesc : List RelatedEntry → List RelatedEntry
  | [] => []
  | x :: xs => insertByRelevance x (sortByRelevanceDesc xs)

/-- findRelatedArticles: score every non-self candidate, keep positive
scores, sort by descending relevance (stable) and take the first 5. -/
def findRelatedArticles (posts : List Article) (concepts : List String)
    (currentSlug : String) : List RelatedEntry :=
  (sortByRelevanceDesc (relatedCandidates posts concepts currentSlug)).take 5

/-- An entry of the getLearningPath result. -/
structure PathEntry where
  slug : String
  title : String
deriving DecidableEq

/-- The getLearningPath result. -/
structure LearningPath where
  previous : List PathEntry
  next : List PathEntry
deriving DecidableEq

/-- The difficulty array ['beginner', 'intermediate', 'advanced']. -/
def difficulties : List String := ["beginner", "intermediate", "advanced"]

/-- Array.prototype.indexOf: first index of s, or -1 when absent. -/
def indexOfJs (l : List String) (s : String) : Int :=
  go l 0
where
  go : List String → Int → Int
    | [], _ => -1
    | x :: xs, i => if x = s then i else go xs (i + 1)

/-- x || d on an optional string: undefined and the empty string (both
falsy) yield the default. -/
def jsOrDefault (s : Option String) (d : String) : String :=
  match s with
  | none => d
  | some v => if v = "" then d else v

/-- The previous-filter of getLearningPath: not self, and either a direct
prerequisite of the current article, or same mindmapBranch with a strictly
lower difficulty index. -/
def prevPred (currentSlug : String) (currentPost post : Article) : Bool :=
  if post.slug = currentSlug then false
  else if decide (post.slug ∈ currentPost.prerequisites.getD []) then true
  else if post.mindmapBranch = currentPost.mindmapBranch then
    decide (indexOfJs difficulties (jsOrDefault post.difficulty "beginner") <
            indexOfJs difficulties (jsOrDefault currentPost.difficulty "beginner"))
  else false

/-- The next-filter of getLearningPath: not self, and either lists the
current slug among its prerequisites, or same mindmapBranch with a strictly
higher difficulty index. -/
def nextPred (currentSlug : String) (currentPost post : Article) : Bool :=
  if post.slug = currentSlug then false
  else if decide (currentSlug ∈ post.prerequisites.getD []) then true
  else if post.mindmapBranch = currentPost.mindmapBranch then
    decide (indexOfJs difficulties (jsOrDefault currentPost.difficulty "beginner") <
            indexOfJs difficulties (jsOrDefault post.difficulty "beginner"))
  else false

/-- getLearningPath: find the target; if absent return empty lists;
otherwise filter previous and next candidates in collection order, project
to {slug, title} and keep the first 3 of each. -/
def getLearningPath (posts : List Article) (currentSlug : String) : LearningPath :=
  match posts.find? (fun p => decide (p.slug = currentSlug)) with
  | none => { previous := [], next := [] }
  | some currentPost =>
    { previous := ((posts.filter (prevPred currentSlug currentPost)).map
        (fun p => PathEntry.mk p.slug p.title)).take 3,
      next := ((posts.filter (nextPred currentSlug currentPost)).map
        (fun p => PathEntry.mk p.slug p.title)).take 3 }

/-- The list of keys registered for one article by initializeLinkResolver,
in registration order: title, lowercased title, slug, hyphenated title,
lowercased hyphenated title, and (only when the simplification changed the
string) the simplified title and its lowercase. -/
def keysOf (post : Article) : List String :=
  let base := [post.title, lowerStr post.title, post.slug,
               hyphenate post.title, lowerStr (hyphenate post.title)]
  let simplified := simplify post.title
  if simplified ≠ post.title then base ++ [simplified, lowerStr simplified]
  else base

/-- The slug of the last article in collection order that registers key k
(last write wins), if any. -/
def lastSlugFor (posts : List Article) (k : String) : Option String :=
  posts.foldl (fun acc p => if k ∈ keysOf p then some p.slug else acc) none

/-- Modelled from the spec: the four lookup keys resolveWikiLink tries, in
order — exact, lowercased, whitespace-to-hyphen, whitespace-to-hyphen
lowercased. -/
def candidateKeys (linkText : String) : List String :=
  [linkText, lowerStr linkText, hyphenate linkText, lowerStr (hyphenate linkText)]

/-- Modelled from the spec: try the keys in order and return the first hit. -/
def firstHit (m : Index) : List String → Option String
  | [] => none
  | k :: ks =>
    match lookupTruthy m k with
    | some s => some s
    | none => firstHit m ks

/-- Modelled from the spec: the relevance of a candidate is the sum over the
query concepts c of (+3 if some candidate concept contains c as a
case-insensitive substring) + (+2 if some candidate tag does) + (+1 if the
lowercased candidate title does). -/
def specScore (concepts : List String) (post : Article) : Nat :=
  (concepts.map (fun c =>
    (if (post.concepts.getD []).any
        (fun pc => includesStr (lowerStr pc) (lowerStr c)) then 3 else 0) +
    (if (post.tags.getD []).any
        (fun tg => includesStr (lowerStr tg) (lowerStr c)) then 2 else 0) +
    (if includesStr (lowerStr post.title) (lowerStr c) then 1 else 0))).sum

/-- No two adjacent whitespace characters (so every whitespace run has
length one). -/
def noAdjWs : List Char → Bool
  | [] => true
  | [_] => true
  | a :: b :: r => (!(isJsSpace a && isJsSpace b)) && noAdjWs (b :: r)

/-- The head character, if any, is not whitespace. -/
def headNotWs : List Char → Prop
  | [] => True
  | c :: _ => isJsSpace c = false

/-- The first article of the spec's scenario collection. -/
def introArticle : Article :=
  { slug := "intro", title := "Introduction to Order Books",
    concepts := some ["Order Book"], tags := none, prerequisites := none,
    relatedArticles := none, difficulty := none, mindmapBranch := none }

/-- The second article of the spec's scenario collection. -/
def advArticle : Article :=
  { slug := "adv-ob", title := "Advanced Order Book Design",
    concepts := some ["Order Book", "Matching Engine"], tags := none,
    prerequisites := some ["intro"], relatedArticles := none,
    difficulty := none, mindmapBranch := none }

/-- The spec's two-article scenario collection. -/
def scenarioCollection : List Article := [introArticle, advArticle]

/-- Two articles sharing one title (a key collision). -/
def collisionA : Article :=
  { slug := "a", title := "Shared Title", concepts := none, tags := none,
    prerequisites := none, relatedArticles := none, difficulty := none,
    mindmapBranch := none }

/-- See collisionA. -/
def collisionB : Article :=
  { slug := "b", title := "Shared Title", concepts := none, tags := none,
    prerequisites := none, relatedArticles := none, difficulty := none,
    mindmapBranch := none }

/-- A collection in which two articles register the same title key. -/
def collisionCollection : List Article := [collisionA, collisionB]

/-- A target article with four dependents. -/
def capTarget : Article :=
  { slug := "t", title := "Target", concepts := none, tags := none,
    prerequisites := none, relatedArticles := none, difficulty := none,
    mindmapBranch := none }

/-- An article listing capTarget as prerequisite. -/
def dep1 : Article :=
  { slug := "b1", title := "Dep One", concepts := none, tags := none,
    prerequisites := some ["t"], relatedArticles := none, difficulty := none,
    mindmapBranch := none }

/-- An article listing capTarget as prerequisite. -/
def dep2 : Article :=
  { slug := "b2", title := "Dep Two", concepts := none, tags := none,
    prerequisites := some ["t"], relatedArticles := none, difficulty := none,
    mindmapBranch := none }

/-- An article listing capTarget as prerequisite. -/
def dep3 : Article :=
  { slug := "b3", title := "Dep Three", concepts := none, tags := none,
    prerequisites := some ["t"], relatedArticles := none, difficulty := none,
    mindmapBranch := none }

/-- An article listing capTarget as prerequisite. -/
def dep4 : Article :=
  { slug := "b4", title := "Dep Four", concepts := none, tags := none,
    prerequisites := some ["t"], relatedArticles := none, difficulty := none,
    mindmapBranch := none }

/-- A collection with four articles depending on the same target. -/
def capCollection : List Article := [capTarget, dep1, dep2, dep3, dep4]

/-- A one-article collection (first snapshot). -/
def collectionA : List Article :=
  [{ slug := "a", title := "Alpha", concepts := none, tags := none,
     prerequisites := none, relatedArticles := none, difficulty := none,
     mindmapBranch := none }]

/-- A different one-article collection (second snapshot). -/
def collectionB : List Article :=
  [{ slug := "b", title := "Beta", concepts := none, tags := none,
     prerequisites := none, relatedArticles := none, difficulty := none,
     mindmapBranch := none }]

/-- An article whose title contains a run of two spaces. -/
def doubleSpaceArticle : Article :=
  { slug := "ob", title := "Order  Book", concepts := none, tags := none,
    prerequisites := none, relatedArticles := none, difficulty := none,
    mindmapBranch := none }

/-- A collection containing only doubleSpaceArticle. -/
def doubleSpaceCollection : List Article := [doubleSpaceArticle]

/-- An advanced article with no mindmapBranch. -/
def advTargetEx : Article :=
  { slug := "c", title := "Current", concepts := none, tags := none,
    prerequisites := none, relatedArticles := none,
    difficulty := some "advanced", mindmapBranch := none }

/-- An article with neither difficulty nor mindmapBranch. -/
def begPostEx : Article :=
  { slug := "p", title := "Post", concepts := none, tags := none,
    prerequisites := none, relatedArticles := none, difficulty := none,
    mindmapBranch := none }

/-! Lemmas about the index: Map.get over the registration list. -/

theorem foldl_mapGet_acc (k : String) (m : Index) : ∀ acc : Option String,
    List.foldl (fun a kv => if kv.1 = k then some kv.2 else a) acc m =
      (mapGet m k).or acc := by
  induction m with
  | nil => intro acc; simp [mapGet, Option.or]
  | cons kv m ih =>
    intro acc
    have h1 := ih (if kv.1 = k then some kv.2 else acc)
    have h2 := ih (if kv.1 = k then some kv.2 else none)
    simp only [mapGet, List.foldl_cons] at *
    rw [h1, h2]
    cases List.foldl (fun a kv => if kv.1 = k then some kv.2 else a) none m with
    | none => by_cases h : kv.1 = k <;> simp [h, Option.or]
    | some v => simp [Option.or]

theorem mapGet_append (m1 m2 : Index) (k : String) :
    mapGet (m1 ++ m2) k = (mapGet m2 k).or (mapGet m1 k) := by
  simp only [mapGet, List.foldl_append]
  rw [foldl_mapGet_acc]
  rfl

theorem mapGet_keyBlock (ks : List String) (v k : String) :
    mapGet (ks.map (fun k2 => (k2, v))) k =
      if k ∈ ks then some v else none := by
  induction ks with
  | nil => simp [mapGet]
  | cons k2 ks ih =>
    simp only [List.map_cons, mapGet, List.foldl_cons]
    rw [foldl_mapGet_acc, ih]
    by_cases h2 : k = k2
    · subst h2
      by_cases h1 : k ∈ ks <;> simp [h1, Option.or]
    · have h2x : ¬k2 = k := fun h => h2 h.symm
      by_cases h1 : k ∈ ks <;> simp [h1, h2, h2x, Option.or, List.mem_cons]

theorem registerPost_eq (m : Index) (p : Article) :
    registerPost m p = m ++ (keysOf p).map (fun k => (k, p.slug)) := by
  unfold registerPost keysOf mapSet
  by_cases h : simplify p.title = p.title <;> simp [h]

theorem foldl_lastSlug_acc (k : String) (posts : List Article) :
    ∀ acc : Option String,
    List.foldl (fun a p => if k ∈ keysOf p then some p.slug else a) acc posts =
      (lastSlugFor posts k).or acc := by
  induction posts with
  | nil => intro acc; simp [lastSlugFor, Option.or]
  | cons p ps ih =>
    intro acc
    have h1 := ih (if k ∈ keysOf p then some p.slug else acc)
    have h2 := ih (if k ∈ keysOf p then some p.slug else none)
    simp only [lastSlugFor, List.foldl_cons] at *
    rw [h1, h2]
    cases List.foldl (fun a p => if k ∈ keysOf p then some p.slug else a) none ps with
    | none => by_cases h : k ∈ keysOf p <;> simp [h, Option.or]
    | some v => simp [Option.or]

theorem mapGet_buildIndex (posts : List Article) (k : String) :
    mapGet (buildIndex posts) k = lastSlugFor posts k := by
  have aux : ∀ (ps : List Article) (m : Index),
      mapGet (ps.foldl registerPost m) k = (lastSlugFor ps k).or (mapGet m k) := by
    intro ps
    induction ps with
    | nil => intro m; simp [lastSlugFor, Option.or]
    | cons p ps ih =>
      intro m
      show mapGet (ps.foldl registerPost (registerPost m p)) k = _
      rw [ih, registerPost_eq, mapGet_append, mapGet_keyBlock]
      have hcons : lastSlugFor (p :: ps) k =
          (lastSlugFor ps k).or (if k ∈ keysOf p then some p.slug else none) := by
        simp only [lastSlugFor, List.foldl_cons]
        rw [foldl_lastSlug_acc]
        rfl
      rw [hcons]
      cases lastSlugFor ps k <;> simp [Option.or]
  have h := aux posts []
  rw [buildIndex, h]
  cases lastSlugFor posts k <;> simp [mapGet, Option.or]

theorem lastSlugFor_eq_some (posts : List Article) (k s : String)
    (hex : ∃ B ∈ posts, k ∈ keysOf B ∧ B.slug = s)
    (hall : ∀ B ∈ posts, k ∈ keysOf B → B.slug = s) :
    lastSlugFor posts k = some s := by
  have aux : ∀ (ps : List Article) (acc : Option String),
      (∀ B ∈ ps, k ∈ keysOf B → B.slug = s) →
      ((∃ B ∈ ps, k ∈ keysOf B) ∨ acc = some s) →
      List.foldl (fun a p => if k ∈ keysOf p then some p.slug else a) acc ps =
        some s := by
    intro ps
    induction ps with
    | nil =>
      intro acc _ hor
      rcases hor with ⟨B, hB, _⟩ | hacc
      · exact absurd hB (List.not_mem_nil B)
      · simpa using hacc
    | cons p ps ih =>
      intro acc hall2 hor
      simp only [List.foldl_cons]
      by_cases hk : k ∈ keysOf p
      · have hps : p.slug = s := hall2 p (List.mem_cons_self p ps) hk
        refine ih _ (fun B hB hkB => hall2 B (List.mem_cons_of_mem p hB) hkB) ?_
        right; simp [hk, hps]
      · have hor2 : (∃ B ∈ ps, k ∈ keysOf B) ∨
            (if k ∈ keysOf p then some p.slug else acc) = some s := by
          rcases hor with ⟨B, hB, hkB⟩ | hacc
          · rcases List.mem_cons.mp hB with rfl | hB2
            · exact absurd hkB hk
            · exact Or.inl ⟨B, hB2, hkB⟩
          · right; simp [hk, hacc]
        exact ih _ (fun B hB hkB => hall2 B (List.mem_cons_of_mem p hB) hkB) hor2
  exact aux posts none hall (Or.inl (by
    obtain ⟨B, hB, hkB, _⟩ := hex
    exact ⟨B, hB, hkB⟩))

theorem lastSlugFor_mem (posts : List Article) (k v : String)
    (h : lastSlugFor posts k = some v) :
    ∃ B ∈ posts, k ∈ keysOf B ∧ B.slug = v := by
  have aux : ∀ (ps : List Article) (acc : Option String),
      List.foldl (fun a p => if k ∈ keysOf p then some p.slug else a) acc ps =
        some v →
      (∃ B ∈ ps, k ∈ keysOf B ∧ B.slug = v) ∨ acc = some v := by
    intro ps
    induction ps with
    | nil => intro acc h2; right; simpa using h2
    | cons p ps ih =>
      intro acc h2
      simp only [List.foldl_cons] at h2
      rcases ih _ h2 with ⟨B, hB, hkB, hv⟩ | hacc
      · exact Or.inl ⟨B, List.mem_cons_of_mem p hB, hkB, hv⟩
      · by_cases hk : k ∈ keysOf p
        · simp [hk] at hacc
          exact Or.inl ⟨p, List.mem_cons_self p ps, hk, hacc⟩
        · simp [hk] at hacc
          right; exact hacc
  rcases aux posts none h with hg | hbad
  · exact hg
  · cases hbad

theorem keysOf_title (p : Article) : p.title ∈ keysOf p := by
  by_cases h : simplify p.title ≠ p.title <;> simp [keysOf, h]

theorem keysOf_slug (p : Article) : p.slug ∈ keysOf p := by
  by_cases h : simplify p.title ≠ p.title <;> simp [keysOf, h]

theorem keysOf_hyphen (p : Article) : hyphenate p.title ∈ keysOf p := by
  by_cases h : simplify p.title ≠ p.title <;> simp [keysOf, h]

theorem lookupTruthy_buildIndex_some (posts : List Article) (A : Article)
    (k : String) (hA : A ∈ posts) (hk : k ∈ keysOf A) (hs : A.slug ≠ "")
    (huniq : ∀ B ∈ posts, k ∈ keysOf B → B.slug = A.slug) :
    lookupTruthy (buildIndex posts) k = some A.slug := by
  unfold lookupTruthy
  rw [mapGet_buildIndex,
    lastSlugFor_eq_some posts k A.slug ⟨A, hA, hk, rfl⟩ huniq]
  simp [hs]

theorem lookupTruthy_buildIndex_cases (posts : List Article) (s k : String)
    (huniq : ∀ B ∈ posts, k ∈ keysOf B → B.slug = s) :
    lookupTruthy (buildIndex posts) k = none ∨
      lookupTruthy (buildIndex posts) k = some s := by
  unfold lookupTruthy
  rw [mapGet_buildIndex]
  cases h : lastSlugFor posts k with
  | none => exact Or.inl rfl
  | some v =>
    obtain ⟨B, hB, hkB, hv⟩ := lastSlugFor_mem posts k v h
    have hvs : v = s := by rw [← hv]; exact (huniq B hB hkB).symm ▸ rfl
    subst hvs
    by_cases hz : v = ""
    · exact Or.inl (by simp [hz])
    · exact Or.inr (by simp [hz])

/-! Lemmas relating hyphenation and first-space replacement. -/

theorem hyphenateAux_flag (cs : List Char) (h : headNotWs cs) :
    hyphenateAux cs true = hyphenateAux cs false := by
  cases cs with
  | nil => rfl
  | cons c cs =>
    have hc : isJsSpace c = false := h
    simp [hyphenateAux, hc]

theorem noAdjWs_tail (c : Char) (cs : List Char)
    (h : noAdjWs (c :: cs) = true) : noAdjWs cs = true := by
  cases cs with
  | nil => rfl
  | cons d r =>
    simp only [noAdjWs, Bool.and_eq_true] at h
    exact h.2

theorem noAdjWs_head (c : Char) (cs : List Char)
    (h : noAdjWs (c :: cs) = true) (hc : isJsSpace c = true) :
    headNotWs cs := by
  cases cs with
  | nil => trivial
  | cons d r =>
    simp only [noAdjWs, Bool.and_eq_true, Bool.not_eq_true',
      Bool.and_eq_false_iff] at h
    rcases h.1 with h1 | h1
    · rw [hc] at h1; cases h1
    · exact h1

theorem hyphenateAux_replaceFirst : ∀ (cs : List Char),
    noAdjWs cs = true → ∀ (b : Bool), (b = true → headNotWs cs) →
    hyphenateAux (replaceFirstSpace cs) b = hyphenateAux cs b := by
  intro cs
  induction cs with
  | nil => intro _ b _; rfl
  | cons c cs ih =>
    intro hadj b hb
    by_cases hsp : c = ' '
    · subst hsp
      cases b with
      | true =>
        have : isJsSpace ' ' = false := hb rfl
        simp [isJsSpace] at this
      | false =>
        show hyphenateAux ('-' :: cs) false = hyphenateAux (' ' :: cs) false
        have h1 : isJsSpace '-' = false := by decide
        have h2 : isJsSpace ' ' = true := by decide
        simp only [hyphenateAux, h1, h2, if_true, if_false,
          Bool.false_eq_true, ite_false, ite_true]
        exact congrArg (List.cons '-')
          (hyphenateAux_flag cs (noAdjWs_head ' ' cs hadj h2)).symm
    · have hrw : replaceFirstSpace (c :: cs) = c :: replaceFirstSpace cs := by
        simp [replaceFirstSpace, hsp]
      rw [hrw]
      by_cases hws : isJsSpace c = true
      · cases b with
        | true =>
          have : isJsSpace c = false := hb rfl
          rw [hws] at this; cases this
        | false =>
          simp only [hyphenateAux, hws, if_true, Bool.false_eq_true,
            ite_false, ite_true]
          exact congrArg (List.cons '-')
            (ih (noAdjWs_tail c cs hadj) true
              (fun _ => noAdjWs_head c cs hadj hws))
      · have hws2 : isJsSpace c = false := by
          cases h : isJsSpace c
          · rfl
          · exact absurd h hws
        simp only [hyphenateAux, hws2, Bool.false_eq_true, ite_false]
        exact congrArg (List.cons c)
          (ih (noAdjWs_tail c cs hadj) false (fun h => by cases h))

theorem hyphenate_replaceFirst (s : String) (h : noAdjWs s.data = true) :
    hyphenate (replaceFirstSpaceStr s) = hyphenate s := by
  unfold hyphenate replaceFirstSpaceStr
  exact congrArg String.mk
    (hyphenateAux_replaceFirst s.data h false (fun h2 => by cases h2))

/-! Lemmas about the stable descending sort and the candidate list. -/

theorem mem_insertByRelevance (x y : RelatedEntry) (l : List RelatedEntry) :
    y ∈ insertByRelevance x l ↔ y = x ∨ y ∈ l := by
  induction l with
  | nil => simp [insertByRelevance]
  | cons z l ih =>
    by_cases h : z.relevance ≤ x.relevance
    · simp [insertByRelevance, h, List.mem_cons]
    · simp only [insertByRelevance, h, if_false, List.mem_cons, ih]
      tauto

theorem mem_sortByRelevanceDesc (y : RelatedEntry) (l : List RelatedEntry) :
    y ∈ sortByRelevanceDesc l ↔ y ∈ l := by
  induction l with
  | nil => simp [sortByRelevanceDesc]
  | cons x l ih =>
    simp only [sortByRelevanceDesc, mem_insertByRelevance, ih, List.mem_cons]

theorem pairwise_insertByRelevance (x : RelatedEntry) (l : List RelatedEntry)
    (h : l.Pairwise (fun a b => b.relevance ≤ a.relevance)) :
    (insertByRelevance x l).Pairwise (fun a b => b.relevance ≤ a.relevance) := by
  induction l with
  | nil => simp [insertByRelevance]
  | cons y l ih =>
    rcases List.pairwise_cons.mp h with ⟨hy, hl⟩
    by_cases hc : y.relevance ≤ x.relevance
    · simp only [insertByRelevance, hc, if_true]
      refine List.pairwise_cons.mpr ⟨?_, h⟩
      intro z hz
      rcases List.mem_cons.mp hz with rfl | hz2
      · exact hc
      · exact le_trans (hy z hz2) hc
    · simp only [insertByRelevance, hc, if_false]
      refine List.pairwise_cons.mpr ⟨?_, ih hl⟩
      intro z hz
      rcases (mem_insertByRelevance x z l).mp hz with rfl | hz2
      · exact le_of_not_le hc
      · exact hy z hz2

theorem pairwise_sortByRelevanceDesc (l : List RelatedEntry) :
    (sortByRelevanceDesc l).Pairwise (fun a b => b.relevance ≤ a.relevance) := by
  induction l with
  | nil => simp [sortByRelevanceDesc]
  | cons x l ih => exact pairwise_insertByRelevance x _ ih

theorem filter_insertByRelevance (x : RelatedEntry) (l : List RelatedEntry)
    (r : Nat) :
    (insertByRelevance x l).filter (fun e => e.relevance == r) =
      ((if x.relevance == r then [x] else []) ++
        l.filter (fun e => e.relevance == r)) := by
  induction l with
  | nil =>
    by_cases hx : x.relevance = r <;>
      simp [insertByRelevance, List.filter_cons, hx, beq_iff_eq]
  | cons y l ih =>
    by_cases hc : y.relevance ≤ x.relevance
    · simp only [insertByRelevance, hc, if_true, List.filter_cons]
      by_cases hx : x.relevance = r <;> by_cases hy : y.relevance = r <;>
        simp [hx, hy, beq_iff_eq]
    · simp only [insertByRelevance, hc, if_false, List.filter_cons, ih]
      by_cases hx : x.relevance = r
      · have hy : ¬(y.relevance = r) := by
          have := lt_of_not_le hc
          omega
        simp [hx, hy, beq_iff_eq]
      · simp [hx, beq_iff_eq]

theorem filter_sortByRelevanceDesc (l : List RelatedEntry) (r : Nat) :
    (sortByRelevanceDesc l).filter (fun e => e.relevance == r) =
      l.filter (fun e => e.relevance == r) := by
  induction l with
  | nil => rfl
  | cons x l ih =>
    simp only [sortByRelevanceDesc, filter_insertByRelevance, ih,
      List.filter_cons]
    by_cases hx : x.relevance = r <;> simp [hx]

theorem mem_relatedCandidates (posts : List Article) (concepts : List String)
    (cur : String) (e : RelatedEntry)
    (h : e ∈ relatedCandidates posts concepts cur) :
    0 < e.relevance ∧ e.slug ≠ cur := by
  unfold relatedCandidates at h
  rw [List.mem_filterMap] at h
  obtain ⟨p, hp, hf⟩ := h
  by_cases h1 : p.slug = cur
  · simp [h1] at hf
  · by_cases h2 : scorePost concepts p > 0
    · simp only [h1, if_false, h2, if_true, Option.some.injEq] at hf
      cases hf
      exact ⟨h2, h1⟩
    · simp [h1, h2] at hf

theorem relatedCandidates_eq_nil (posts : List Article)
    (concepts : List String) (cur : String)
    (h : ∀ p ∈ posts, p.slug = cur ∨ scorePost concepts p = 0) :
    relatedCandidates posts concepts cur = [] := by
  unfold relatedCandidates
  rw [List.filterMap_eq_nil_iff]
  intro p hp
  rcases h p hp with h1 | h1
  · simp [h1]
  · by_cases h2 : p.slug = cur <;> simp [h1, h2]

theorem mem_findRelatedArticles (posts : List Article) (concepts : List String)
    (cur : String) (e : RelatedEntry)
    (h : e ∈ findRelatedArticles posts concepts cur) :
    0 < e.relevance ∧ e.slug ≠ cur := by
  unfold findRelatedArticles at h
  have h2 : e ∈ sortByRelevanceDesc (relatedCandidates posts concepts cur) :=
    (List.take_sublist 5 _).mem h
  exact mem_relatedCandidates posts concepts cur e
    ((mem_sortByRelevanceDesc e _).mp h2)

theorem conceptScoreStep_eq (post : Article) (acc : Nat) (c : String) :
    conceptScoreStep post acc c = acc +
      ((if (post.concepts.getD []).any
          (fun pc => includesStr (lowerStr pc) (lowerStr c)) then 3 else 0) +
       (if (post.tags.getD []).any
          (fun tg => includesStr (lowerStr tg) (lowerStr c)) then 2 else 0) +
       (if includesStr (lowerStr post.title) (lowerStr c) then 1 else 0)) := by
  unfold conceptScoreStep
  by_cases h1 : ((post.concepts.getD []).any
      (fun pc => includesStr (lowerStr pc) (lowerStr c))) = true <;>
    by_cases h2 : ((post.tags.getD []).any
      (fun tg => includesStr (lowerStr tg) (lowerStr c))) = true <;>
    by_cases h3 : (includesStr (lowerStr post.title) (lowerStr c)) = true <;>
    simp [h1, h2, h3]

theorem scorePost_eq_specScore (concepts : List String) (post : Article) :
    scorePost concepts post = specScore concepts post := by
  have aux : ∀ (l : List String) (acc : Nat),
      l.foldl (conceptScoreStep post) acc = acc + specScore l post := by
    intro l
    induction l with
    | nil => intro acc; simp [specScore]
    | cons c l ih =>
      intro acc
      simp only [List.foldl_cons, ih, conceptScoreStep_eq, specScore,
        List.map_cons, List.sum_cons]
      omega
  have h := aux concepts 0
  simpa [scorePost] using h

/-! The claims. -/

/-- C1 counterexample: on the spec's two-article scenario, findRelated for
concepts ["Order Book"] excluding "intro" does not return the single entry
with relevance 3 claimed by the spec (the code computes relevance 4). -/
theorem scenario_relevance_counterexample :
    findRelatedArticles scenarioCollection ["Order Book"] "intro" ≠
      [RelatedEntry.mk "adv-ob" "Advanced Order Book Design" 3] := by decide

/-- C1 (amended): on the spec's scenario, resolve("Introduction to Order
Books") = "/blog/intro/", findRelated(["Order Book"], "intro") returns
exactly [{slug:"adv-ob", title:"Advanced Order Book Design", relevance:4}]
(the +3 concept match plus the +1 title match, since the lowercased title
"advanced order book design" contains "order book"), and
buildLearningPath("adv-ob").previous contains {slug:"intro",
title:"Introduction to Order Books"}. -/
theorem scenario_behavior :
    resolveWikiLink (buildIndex scenarioCollection)
        "Introduction to Order Books" = some "/blog/intro/" ∧
    findRelatedArticles scenarioCollection ["Order Book"] "intro" =
      [RelatedEntry.mk "adv-ob" "Advanced Order Book Design" 4] ∧
    PathEntry.mk "intro" "Introduction to Order Books" ∈
      (getLearningPath scenarioCollection "adv-ob").previous := by decide

/-- C2 counterexample: in a collection where two articles share one title,
the earlier article's title no longer resolves to its own slug (last write
wins), so the claim fails as stated. -/
theorem title_collision_counterexample :
    collisionA ∈ collisionCollection ∧
    resolveWikiLink (buildIndex collisionCollection) collisionA.title ≠
      some ("/blog/" ++ collisionA.slug ++ "/") := by decide

/-- C2 (amended): for every article A of the collection whose slug is
nonempty and whose title and slug are not registered as keys by any article
with a different slug, both resolve(A.title) and resolve(A.slug) return
"/blog/" ++ A.slug ++ "/". -/
theorem resolve_title_and_slug (posts : List Article) (A : Article)
    (hA : A ∈ posts) (hs : A.slug ≠ "")
    (ht : ∀ B ∈ posts, A.title ∈ keysOf B → B.slug = A.slug)
    (hg : ∀ B ∈ posts, A.slug ∈ keysOf B → B.slug = A.slug) :
    resolveWikiLink (buildIndex posts) A.title =
      some ("/blog/" ++ A.slug ++ "/") ∧
    resolveWikiLink (buildIndex posts) A.slug =
      some ("/blog/" ++ A.slug ++ "/") := by
  constructor
  · unfold resolveWikiLink
    rw [lookupTruthy_buildIndex_some posts A A.title hA (keysOf_title A) hs ht]
  · unfold resolveWikiLink
    rw [lookupTruthy_buildIndex_some posts A A.slug hA (keysOf_slug A) hs hg]

/-- C2 witness: on the scenario collection, resolve of the title and of the
slug of the first article both return "/blog/intro/". -/
theorem resolve_title_and_slug_witness :
    resolveWikiLink (buildIndex scenarioCollection)
        "Introduction to Order Books" = some "/blog/intro/" ∧
    resolveWikiLink (buildIndex scenarioCollection) "intro" =
      some "/blog/intro/" :=
  resolve_title_and_slug scenarioCollection introArticle
    (by decide) (by decide) (by decide) (by decide)

/-- C3 counterexample: with four articles all listing the target as
prerequisite, the fourth dependent does not appear in the next list (the
code keeps only the first 3 qualifying candidates). -/
theorem prereq_cap_counterexample :
    dep4 ∈ capCollection ∧ capTarget ∈ capCollection ∧
    dep4.slug ≠ capTarget.slug ∧
    capTarget.slug ∈ dep4.prerequisites.getD [] ∧
    PathEntry.mk dep4.slug dep4.title ∉
      (getLearningPath capCollection capTarget.slug).next := by decide

/-- C3 (amended): for distinct articles A and B in the collection, where A
is the article found for its slug: if B lists A's slug among its
prerequisites and at most 3 candidates qualify for A's next list, then B
appears in next for A; symmetrically, if A lists B's slug among its
prerequisites and at most 3 candidates qualify for A's previous list, then
B appears in previous for A.  (The code caps each list at its first 3
qualifying candidates in collection order.) -/
theorem learning_path_prereq_links (posts : List Article) (A B : Article)
    (hfind : posts.find? (fun p => decide (p.slug = A.slug)) = some A)
    (hB : B ∈ posts) (hne : B.slug ≠ A.slug) :
    (A.slug ∈ B.prerequisites.getD [] →
       (posts.filter (nextPred A.slug A)).length ≤ 3 →
       PathEntry.mk B.slug B.title ∈ (getLearningPath posts A.slug).next) ∧
    (B.slug ∈ A.prerequisites.getD [] →
       (posts.filter (prevPred A.slug A)).length ≤ 3 →
       PathEntry.mk B.slug B.title ∈
         (getLearningPath posts A.slug).previous) := by
  unfold getLearningPath
  rw [hfind]
  constructor
  · intro hpre hlen
    have hq : nextPred A.slug A B = true := by
      unfold nextPred
      simp [hne, hpre]
    have hmem : B ∈ posts.filter (nextPred A.slug A) :=
      List.mem_filter.mpr ⟨hB, hq⟩
    have hlen2 : ((posts.filter (nextPred A.slug A)).map
        (fun p => PathEntry.mk p.slug p.title)).length ≤ 3 := by
      simpa using hlen
    show PathEntry.mk B.slug B.title ∈ List.take 3 _
    rw [List.take_of_length_le hlen2]
    exact List.mem_map.mpr ⟨B, hmem, rfl⟩
  · intro hpre hlen
    have hq : prevPred A.slug A B = true := by
      unfold prevPred
      simp [hne, hpre]
    have hmem : B ∈ posts.filter (prevPred A.slug A) :=
      List.mem_filter.mpr ⟨hB, hq⟩
    have hlen2 : ((posts.filter (prevPred A.slug A)).map
        (fun p => PathEntry.mk p.slug p.title)).length ≤ 3 := by
      simpa using hlen
    show PathEntry.mk B.slug B.title ∈ List.take 3 _
    rw [List.take_of_length_le hlen2]
    exact List.mem_map.mpr ⟨B, hmem, rfl⟩

/-- C3 witness: in the scenario collection, "intro" is a prerequisite of
"adv-ob" and appears in the previous list of buildLearningPath("adv-ob"). -/
theorem learning_path_prereq_links_witness :
    PathEntry.mk "intro" "Introduction to Order Books" ∈
      (getLearningPath scenarioCollection "adv-ob").previous :=
  (learning_path_prereq_links scenarioCollection advArticle introArticle
    (by decide) (by decide) (by decide)).2 (by decide) (by decide)

/-- C4 counterexample: with the index built from collectionA still cached,
a subsequent initializeLinkResolver over the changed collectionB returns
the stale index unchanged: the new article "Beta" does not resolve, though
a fresh build would resolve it. -/
theorem stale_cache_counterexample :
    initializeLinkResolver (some (buildIndex collectionA)) collectionB =
      buildIndex collectionA ∧
    resolveWikiLink
      (initializeLinkResolver (some (buildIndex collectionA)) collectionB)
      "Beta" = none ∧
    resolveWikiLink (buildIndex collectionB) "Beta" = some "/blog/b/" :=
  ⟨rfl, by decide, by decide⟩

/-- C4 (amended): a rebuild from an empty cache yields buildIndex of the
current collection (a pure function of the article set), but when a cache
is present initializeLinkResolver returns it unchanged regardless of the
collection, so a stale index persists across rebuild requests until the
cache is externally discarded. -/
theorem cache_rebuild_behavior :
    (∀ posts : List Article,
        initializeLinkResolver none posts = buildIndex posts) ∧
    (∀ (m : Index) (posts : List Article),
        initializeLinkResolver (some m) posts = m) :=
  ⟨fun _ => rfl, fun _ _ => rfl⟩

/-- C5: findRelated scores each candidate additively over the query
concepts (+3 concept substring hit, +2 tag hit, +1 lowercased-title hit,
all case-insensitive), matching the spec-modelled per-concept sum, and no
output entry has relevance 0 or carries the excluded slug. -/
theorem relevance_scoring_rule :
    (∀ (concepts : List String) (post : Article),
        scorePost concepts post = specScore concepts post) ∧
    (∀ (posts : List Article) (concepts : List String) (cur : String)
        (e : RelatedEntry), e ∈ findRelatedArticles posts concepts cur →
        0 < e.relevance ∧ e.slug ≠ cur) :=
  ⟨scorePost_eq_specScore, mem_findRelatedArticles⟩

/-- C5 witness: on the scenario collection the single output entry has
positive relevance and is not the excluded article. -/
theorem relevance_scoring_rule_witness :
    0 < (RelatedEntry.mk "adv-ob" "Advanced Order Book Design" 4).relevance ∧
    (RelatedEntry.mk "adv-ob" "Advanced Order Book Design" 4).slug ≠
      "intro" :=
  relevance_scoring_rule.2 scenarioCollection ["Order Book"] "intro"
    (RelatedEntry.mk "adv-ob" "Advanced Order Book Design" 4) (by decide)

/-- C6: resolveWikiLink equals the first hit over the four candidate keys
in order (exact, lowercased, hyphenated, hyphenated lowercased), and when
all four lookups miss it returns none rather than failing. -/
theorem resolve_lookup_order (m : Index) (t : String) :
    resolveWikiLink m t =
      (firstHit m (candidateKeys t)).map (fun s => "/blog/" ++ s ++ "/") ∧
    ((∀ k ∈ candidateKeys t, lookupTruthy m k = none) →
      resolveWikiLink m t = none) := by
  have h1 : resolveWikiLink m t =
      (firstHit m (candidateKeys t)).map (fun s => "/blog/" ++ s ++ "/") := by
    simp only [resolveWikiLink, candidateKeys, firstHit]
    cases lookupTruthy m t with
    | some s => rfl
    | none =>
      cases lookupTruthy m (lowerStr t) with
      | some s => rfl
      | none =>
        cases lookupTruthy m (hyphenate t) with
        | some s => rfl
        | none =>
          cases lookupTruthy m (lowerStr (hyphenate t)) with
          | some s => rfl
          | none => rfl
  refine ⟨h1, fun hall => ?_⟩
  rw [h1]
  have e1 := hall t (by simp [candidateKeys])
  have e2 := hall (lowerStr t) (by simp [candidateKeys])
  have e3 := hall (hyphenate t) (by simp [candidateKeys])
  have e4 := hall (lowerStr (hyphenate t)) (by simp [candidateKeys])
  simp [firstHit, candidateKeys, e1, e2, e3, e4]

/-- C6 witness: an unknown reference resolves to none on the empty index. -/
theorem resolve_lookup_order_witness :
    resolveWikiLink ([] : Index) "Totally Unknown Title" = none :=
  (resolve_lookup_order [] "Totally Unknown Title").2 (by decide)

/-- C7: findRelated returns at most 5 entries, never the excluded slug,
sorted by non-increasing relevance; the stable sort keeps, for every
relevance value, the candidates in original collection order (the filter
of the sorted candidate list at each relevance equals the filter of the
unsorted one); and the result is empty when every article is the excluded
one or scores 0. -/
theorem findRelated_contract (posts : List Article) (concepts : List String)
    (cur : String) :
    (findRelatedArticles posts concepts cur).length ≤ 5 ∧
    (∀ e ∈ findRelatedArticles posts concepts cur, e.slug ≠ cur) ∧
    (findRelatedArticles posts concepts cur).Pairwise
      (fun a b => b.relevance ≤ a.relevance) ∧
    (∀ r : Nat,
      (sortByRelevanceDesc (relatedCandidates posts concepts cur)).filter
          (fun e => e.relevance == r) =
        (relatedCandidates posts concepts cur).filter
          (fun e => e.relevance == r)) ∧
    ((∀ p ∈ posts, p.slug = cur ∨ scorePost concepts p = 0) →
      findRelatedArticles posts concepts cur = []) := by
  refine ⟨?_, ?_, ?_, ?_, ?_⟩
  · exact List.length_take_le 5 _
  · intro e he
    exact (mem_findRelatedArticles posts concepts cur e he).2
  · exact List.Pairwise.sublist (List.take_sublist 5 _)
      (pairwise_sortByRelevanceDesc _)
  · intro r
    exact filter_sortByRelevanceDesc _ r
  · intro h
    unfold findRelatedArticles
    rw [relatedCandidates_eq_nil posts concepts cur h]
    rfl

/-- C7 witness: with a concept matching nothing, the result is empty. -/
theorem findRelated_contract_witness :
    findRelatedArticles scenarioCollection ["Quantum"] "intro" = [] :=
  (findRelated_contract scenarioCollection ["Quantum"] "intro").2.2.2.2
    (by decide)

/-- C8 counterexample: for a title containing a run of two spaces,
replacing the first space by a hyphen produces a reference that no longer
resolves (the index key collapses whitespace runs to a single hyphen, the
altered reference hyphenates to a double hyphen). -/
theorem space_hyphen_counterexample :
    doubleSpaceArticle ∈ doubleSpaceCollection ∧
    resolveWikiLink (buildIndex doubleSpaceCollection)
        (replaceFirstSpaceStr doubleSpaceArticle.title) ≠
      some ("/blog/" ++ doubleSpaceArticle.slug ++ "/") := by decide

/-- C8 (amended): for every article A whose title has no two adjacent
whitespace characters, whose slug is nonempty, and whose four lookup keys
for the altered reference are not registered by any article with a
different slug, resolve(A.title with the first space replaced by a hyphen)
still returns "/blog/" ++ A.slug ++ "/". -/
theorem space_hyphen_equivalence (posts : List Article) (A : Article)
    (hA : A ∈ posts) (hs : A.slug ≠ "")
    (hadj : noAdjWs A.title.data = true)
    (hkeys : ∀ k ∈ candidateKeys (replaceFirstSpaceStr A.title),
       ∀ B ∈ posts, k ∈ keysOf B → B.slug = A.slug) :
    resolveWikiLink (buildIndex posts) (replaceFirstSpaceStr A.title) =
      some ("/blog/" ++ A.slug ++ "/") := by
  have hhyp : hyphenate (replaceFirstSpaceStr A.title) = hyphenate A.title :=
    hyphenate_replaceFirst A.title hadj
  have hk1 := hkeys (replaceFirstSpaceStr A.title) (by simp [candidateKeys])
  have hk2 := hkeys (lowerStr (replaceFirstSpaceStr A.title))
    (by simp [candidateKeys])
  have hk3 := hkeys (hyphenate (replaceFirstSpaceStr A.title))
    (by simp [candidateKeys])
  have h3 : lookupTruthy (buildIndex posts)
      (hyphenate (replaceFirstSpaceStr A.title)) = some A.slug := by
    rw [hhyp]
    rw [hhyp] at hk3
    exact lookupTruthy_buildIndex_some posts A (hyphenate A.title) hA
      (keysOf_hyphen A) hs hk3
  unfold resolveWikiLink
  rcases lookupTruthy_buildIndex_cases posts A.slug
      (replaceFirstSpaceStr A.title) hk1 with h1 | h1
  · rw [h1]
    rcases lookupTruthy_buildIndex_cases posts A.slug
        (lowerStr (replaceFirstSpaceStr A.title)) hk2 with h2 | h2
    · rw [h2, h3]
    · rw [h2]
  · rw [h1]

/-- C8 witness: on the scenario collection,
resolve("Introduction-to Order Books") returns "/blog/intro/". -/
theorem space_hyphen_equivalence_witness :
    resolveWikiLink (buildIndex scenarioCollection)
        (replaceFirstSpaceStr "Introduction to Order Books") =
      some "/blog/intro/" :=
  space_hyphen_equivalence scenarioCollection introArticle
    (by decide) (by decide) (by decide) (by decide)

/-- C9: when the target slug matches no article in the collection,
getLearningPath returns empty previous and next lists (and no error). -/
theorem missing_target_empty_path (posts : List Article) (slug : String)
    (h : ∀ p ∈ posts, p.slug ≠ slug) :
    getLearningPath posts slug = { previous := [], next := [] } := by
  unfold getLearningPath
  have hf : posts.find? (fun p => decide (p.slug = slug)) = none := by
    rw [List.find?_eq_none]
    intro p hp
    simpa using h p hp
  rw [hf]

/-- C9 witness: an unknown slug yields empty lists on the scenario
collection. -/
theorem missing_target_empty_path_witness :
    getLearningPath scenarioCollection "unknown-slug" =
      { previous := [], next := [] } :=
  missing_target_empty_path scenarioCollection "unknown-slug" (by decide)

/-- C10: when neither the target nor the candidate has a mindmapBranch,
the branch comparison succeeds (undefined equals undefined), so absent the
prerequisite links the candidate qualifies for previous exactly when its
difficulty index (defaulting to beginner) is strictly below the target's,
and for next exactly when it is strictly above. -/
theorem absent_branch_difficulty_rule (cslug : String)
    (current post : Article)
    (hcb : current.mindmapBranch = none) (hpb : post.mindmapBranch = none)
    (hslug : post.slug ≠ cslug)
    (hpre : post.slug ∉ current.prerequisites.getD [])
    (hreq : cslug ∉ post.prerequisites.getD []) :
    (prevPred cslug current post = true ↔
       indexOfJs difficulties (jsOrDefault post.difficulty "beginner") <
       indexOfJs difficulties (jsOrDefault current.difficulty "beginner")) ∧
    (nextPred cslug current post = true ↔
       indexOfJs difficulties (jsOrDefault current.difficulty "beginner") <
       indexOfJs difficulties (jsOrDefault post.difficulty "beginner")) := by
  unfold prevPred nextPred
  rw [hcb, hpb]
  simp [hslug, hpre, hreq]

/-- C10 witness: a branchless, difficulty-less candidate qualifies as
previous of a branchless advanced target exactly by difficulty rank. -/
theorem absent_branch_difficulty_rule_witness :
    (prevPred "c" advTargetEx begPostEx = true ↔
       indexOfJs difficulties (jsOrDefault begPostEx.difficulty "beginner") <
       indexOfJs difficulties
         (jsOrDefault advTargetEx.difficulty "beginner")) ∧
    (nextPred "c" advTargetEx begPostEx = true ↔
       indexOfJs difficulties
         (jsOrDefault advTargetEx.difficulty "beginner") <
       indexOfJs difficulties
         (jsOrDefault begPostEx.difficulty "beginner")) :=
  absent_branch_difficulty_rule "c" advTargetEx begPostEx
    (by decide) (by decide) (by decide) (by decide) (by decide)
